import Mathlib

/-!
Verification of the device transport / REPL protocol engine of the
pystem-mini-bot repository (`RobotController` in the robot communication
module).  JavaScript strings are modelled as `List Char`; the asynchronous
serial device is modelled as a response oracle `Nat → Option (List Char)`
(the result of the n-th `sendLine` call, `none` standing for the JS `null`
returned by `readUntilPrompt` on failure).  Every definition is translated
from the source; spec-shaped reference definitions are clearly marked.
-/

namespace MiniBot

/-! ## Basic string helpers (JS string primitives on `List Char`) -/

/-- Whitespace as recognised by JS `String.prototype.trim` (ASCII part). -/
def isSpaceChar (c : Char) : Bool :=
  c = ' ' || c = '\t' || c = '\n' || c = '\r' || c = '\x0b' || c = '\x0c'

/-- Remove trailing whitespace (the right half of JS `trim`). -/
def trimRight (l : List Char) : List Char :=
  (l.reverse.dropWhile isSpaceChar).reverse

/-- JS `String.prototype.trim` on a char list. -/
def trimL (l : List Char) : List Char :=
  trimRight (l.dropWhile isSpaceChar)

/-- Does `l` start with `pat` (JS `startsWith`)? -/
def hasPrefixL : List Char → List Char → Bool
  | _, [] => true
  | [], _ :: _ => false
  | c :: cs, p :: ps => c == p && hasPrefixL cs ps

/-- Does `l` end with `pat` (JS `endsWith`)? -/
def endsWithL (l pat : List Char) : Bool :=
  hasPrefixL l.reverse pat.reverse

/-- Index of the first occurrence of `pat` in `l` (JS `indexOf`,
`none` standing for `-1`). -/
def idxOfSubL (pat : List Char) : List Char → Option Nat
  | [] => if pat.isEmpty then some 0 else none
  | c :: cs =>
    if hasPrefixL (c :: cs) pat then some 0
    else (idxOfSubL pat cs).map (· + 1)

/-- JS `String.prototype.includes`. -/
def containsSubL (l pat : List Char) : Bool :=
  (idxOfSubL pat l).isSome

/-- JS `String.prototype.split` with a single-character separator. -/
def splitOnChar (sep : Char) : List Char → List (List Char)
  | [] => [[]]
  | c :: cs =>
    let r := splitOnChar sep cs
    if c = sep then [] :: r
    else (c :: r.headD []) :: r.tail

/-- JS `replace(/\r/g, '\n')`: characterwise replacement. -/
def normalizeCR (l : List Char) : List Char :=
  l.map fun c => if c = '\r' then '\n' else c

/-- JS `replace(/\r\n/g, '\n')`: left-to-right global scan. -/
def normalizeCRLF : List Char → List Char
  | [] => []
  | '\r' :: '\n' :: rest => '\n' :: normalizeCRLF rest
  | c :: rest => c :: normalizeCRLF rest

/-- JS `String.prototype.substring` (clamps and swaps its endpoints). -/
def substringJs (l : List Char) (a b : Nat) : List Char :=
  (l.take (max a b)).drop (min a b)

/-- Decimal digits of a natural number (JS number-to-string interpolation),
via an explicit fuel argument for structural recursion. -/
def natDecAux : Nat → Nat → List Char
  | 0, _ => []
  | fuel + 1, n =>
    if n < 10 then [Char.ofNat (48 + n)]
    else natDecAux fuel (n / 10) ++ [Char.ofNat (48 + n % 10)]

/-- Decimal representation of a natural number. -/
def natDec (n : Nat) : List Char := natDecAux (n + 1) n

/-! ## Shared Receive Buffer and Buffer Consumers (C2)

Source: `backgroundReadLoop` — on each received chunk the loop pushes a
timestamped entry and then applies the retention policy:

    if (this.serialBuffer.length > 10000) {
        this.serialBuffer = this.serialBuffer.slice(-5000);
        this.bufferConsumers.forEach(consumer => {
            if (consumer.position > 5000) { consumer.position -= 5000; }
            else { consumer.position = 0; }
        });
    }
-/

/-- One entry of the Shared Receive Buffer (`{data, timestamp, type}`;
the constant `type: 'received'` field is omitted). -/
structure BufferEntry where
  data : List Char
  timestamp : Nat
deriving DecidableEq

/-- A Buffer Consumer: an id and a cursor into the buffer. -/
structure Consumer where
  id : List Char
  position : Nat
deriving DecidableEq

/-- The retention policy applied after a push in `backgroundReadLoop`. -/
def truncateStep (buf : List BufferEntry) (cs : List Consumer) :
    List BufferEntry × List Consumer :=
  if buf.length > 10000 then
    (buf.drop (buf.length - 5000),
     cs.map fun c =>
       { c with position := if c.position > 5000 then c.position - 5000 else 0 })
  else (buf, cs)

/-- One iteration of `backgroundReadLoop` on a successful read: push the
entry, then apply the retention policy. -/
def appendChunk (e : BufferEntry) (buf : List BufferEntry)
    (cs : List Consumer) : List BufferEntry × List Consumer :=
  truncateStep (buf ++ [e]) cs

/-! ## disconnect() cleanup ordering (C4) -/

/-- The observable cleanup actions performed by `disconnect()`. -/
inductive DAction
  | stopBackgroundReading
  | readerCancel
  | readerReleaseLock
  | writerClose
  | portClose
  | clearBuffer
deriving DecidableEq

/-- Connection state: which handles are non-null when `disconnect()` runs. -/
structure ConnState where
  reader : Bool
  writer : Bool
  port : Bool

/-- The sequence of cleanup actions performed by `disconnect()`, in source
order: stop background reading; `reader.cancel(); reader.releaseLock()`;
`writer.close()`; `port.close()`; clear the buffer and consumers. -/
def disconnectTrace (s : ConnState) : List DAction :=
  [DAction.stopBackgroundReading]
    ++ (if s.reader then [DAction.readerCancel, DAction.readerReleaseLock] else [])
    ++ (if s.writer then [DAction.writerClose] else [])
    ++ (if s.port then [DAction.portClose] else [])
    ++ [DAction.clearBuffer]

/-! ## uploadCode chunk splitting (C1)

Source:

    // This has to be half of this.chunkSize to avoid OSError 28
    const chunkSize = this.chunkSize // 2;
    const chunks = Math.ceil(code.length / chunkSize);

In JavaScript `// 2` is a line comment, not integer division, so
`chunkSize` is `this.chunkSize` itself (1024), not 512. -/

/-- The chunk size actually used by `uploadCode` (see the comment above:
the intended halving is parsed away as a JS comment). -/
def uploadChunkSize : Nat := 1024

/-- The chunk/append-flag sequence produced by `uploadCode`'s loop:
chunk `i` is `code.substring(i * chunkSize, (i + 1) * chunkSize)` and is
sent with `append = i > 0`. -/
def uploadChunks (code : List Char) : List (List Char × Bool) :=
  (List.range ((code.length + (uploadChunkSize - 1)) / uploadChunkSize)).map
    fun i => ((code.drop (i * uploadChunkSize)).take uploadChunkSize, decide (0 < i))

/-! ## Prompt Scanner: readUntilPrompt (C3)

Source: a fresh consumer is polled with `readWithTimeout(200)`; the poll
results drive a three-phase state machine (`receiveMode` 0 = echo,
1 = data, 2 = prompt).  An empty poll increments `retryCount`; when
`retryCount > 1` the call returns `null`.  The poll stream is modelled
as a `List (List Char)`; once it is exhausted every further poll is
empty, so the call inevitably returns `null` (modelled by the `[]`
base case).  The `lastLineEcho` instance-field assignment, a side
effect not observable in the return value, is omitted. -/

/-- Per-call state of `readUntilPrompt`'s loop. -/
structure RUPState where
  mode : Nat
  pending : List Char
  retry : Nat
  output : List Char
deriving DecidableEq

/-- Result of processing one poll: continue with a new state, or exit the
loop with the final result (`none` = the JS `return null`). -/
inductive StepRes
  | cont (st : RUPState)
  | done (result : Option (List Char))
deriving DecidableEq

/-- The prompt/pending/output analysis performed once `receiveMode = 1`
(the code after the echo block in `readUntilPrompt`). -/
def rupPhase2 (st : RUPState) (pd : List Char) : StepRes :=
  let stripped := trimL pd
  if endsWithL stripped "...".data || endsWithL stripped ">>>".data then
    StepRes.done (some (st.output ++ stripped.take (stripped.length - 3)))
  else if endsWithL pd ".".data || endsWithL pd ">".data then
    StepRes.cont { st with pending := pd }
  else
    StepRes.cont { st with pending := [], output := st.output ++ pd }

/-- One iteration of `readUntilPrompt`'s while loop, given the data
returned by `readWithTimeout` (empty list = timed-out poll). -/
def rupStep (st : RUPState) (data : List Char) : StepRes :=
  if data = [] then
    if st.retry + 1 > 1 then StepRes.done none
    else StepRes.cont { st with retry := st.retry + 1 }
  else
    let pd := if st.pending = [] then data else st.pending ++ data
    if st.mode = 0 then
      match idxOfSubL "\r\n".data pd with
      | none => StepRes.cont { st with pending := pd }
      | some idx =>
        let pd2 := pd.drop (idx + 2)
        if pd2 = [] then StepRes.cont { st with mode := 1, pending := [] }
        else rupPhase2 { st with mode := 1, pending := [] } pd2
    else rupPhase2 st pd

/-- Run `readUntilPrompt`'s loop over a finite poll stream; after the
stream is exhausted all polls are empty, which always ends in `null`. -/
def readUntilPromptAux : RUPState → List (List Char) → Option (List Char)
  | _, [] => none
  | st, d :: rest =>
    match rupStep st d with
    | StepRes.done r => r
    | StepRes.cont st' => readUntilPromptAux st' rest

/-- `readUntilPrompt` on a poll stream, from the initial state
(`receiveMode = 0`, empty pending/output, `retryCount = 0`). -/
def readUntilPrompt (polls : List (List Char)) : Option (List Char) :=
  readUntilPromptAux ⟨0, [], 0, []⟩ polls

/-- Retry counter of a step result (`none` when the loop exited). -/
def stepRetry : StepRes → Option Nat
  | StepRes.cont st => some st.retry
  | StepRes.done _ => none

/-! ## Raw Executor: executeCodeRaw (C5, C6, C9)

The device is a response oracle `respond : Nat → Option (List Char)`:
the result of the n-th `sendLine` call of the run (`none` = `null`). -/

/-- Failure modes of `executeCodeRaw` (each a distinct thrown `Error`). -/
inductive ExecErr
  | unresponsive
  | sendFailed
  | retriesExhausted
deriving DecidableEq

/-- Acceptance test of the retry loop: response non-null and free of the
remote-exception marker `Traceback`. -/
def goodResp : Option (List Char) → Bool
  | none => false
  | some s => !containsSubL s "Traceback".data

/-- The line actually transmitted for a non-blank source line: the
sentinel `_EMPTY_` maps to an intentionally empty line, anything else is
sent trimmed. -/
def execActual (line : List Char) : List Char :=
  if trimL line = "_EMPTY_".data then [] else trimL line

/-- The retry for-loop of `executeCodeRaw`: up to `fuel` attempts
(`fuel = 3` at the call site), stopping at the first accepted response.
Returns (success?, number of attempts actually made). -/
def tryAttempts (respond : Nat → Option (List Char)) (k fuel : Nat) :
    Bool × Nat :=
  if _h : fuel = 0 then (false, 0)
  else if goodResp (respond k) then (true, 1)
  else
    let r := tryAttempts respond (k + 1) (fuel - 1)
    (r.1, r.2 + 1)
termination_by fuel
decreasing_by omega

/-- The per-line loop of `executeCodeRaw` over the split payload.
`k` is the index of the next `sendLine` call.  Returns the outcome, the
transcript of lines actually sent (one entry per `sendLine` call, so a
retried line appears once per attempt), and the final send index. -/
def execLines (retry : Bool) (respond : Nat → Option (List Char)) :
    List (List Char) → Nat → Except ExecErr Unit × List (List Char) × Nat
  | [], k => (Except.ok (), [], k)
  | line :: rest, k =>
    if trimL line = [] then execLines retry respond rest k
    else
      let actual := execActual line
      if !retry || hasPrefixL actual "exec(".data then
        match respond k with
        | none => (Except.error ExecErr.sendFailed, [actual], k + 1)
        | some _ =>
          let r := execLines retry respond rest (k + 1)
          (r.1, actual :: r.2.1, r.2.2)
      else
        let t := tryAttempts respond k 3
        if t.1 then
          let r := execLines retry respond rest (k + t.2)
          (r.1, List.replicate t.2 actual ++ r.2.1, r.2.2)
        else
          (Except.error ExecErr.retriesExhausted,
           List.replicate t.2 actual, k + t.2)

/-- `executeCodeRaw(code, retry)`: after the two interrupt signals the
pending output is drained by the Prompt Scanner (`drain` is its result;
`null` aborts with the unresponsive error), then the payload is
normalized (`replace(/\r/g, '\n')`), split on `'\n'` and processed line
by line.  Returns the outcome and the transcript of sent lines. -/
def executeCodeRaw (drain : Option (List Char)) (code : List Char)
    (retry : Bool) (respond : Nat → Option (List Char)) :
    Except ExecErr Unit × List (List Char) :=
  match drain with
  | none => (Except.error ExecErr.unresponsive, [])
  | some _ =>
    let r := execLines retry respond (splitOnChar '\n' (normalizeCR code)) 0
    (r.1, r.2.1)

/-- Spec-shaped description of the transmitted lines when every response
is accepted: blank lines are skipped, the sentinel becomes an empty
line, everything else is sent trimmed (once). -/
def sentSpec (lines : List (List Char)) : List (List Char) :=
  lines.filterMap fun l => if trimL l = [] then none else some (execActual l)

/-! ## Transfer Encoder: wrapCodeHex (C8) -/

/-- Lowercase hex digit for `n < 16` (JS `toString(16)`). -/
def hexDigit (n : Nat) : Char :=
  if n < 10 then Char.ofNat (48 + n) else Char.ofNat (87 + n)

/-- Two-digit hex encoding of one byte
(JS `b.toString(16).padStart(2, '0')`). -/
def byteHex (b : Nat) : List Char := [hexDigit (b / 16), hexDigit (b % 16)]

/-- The hex string accumulated by `wrapCodeHex`'s first loop. -/
def toHex : List Nat → List Char
  | [] => []
  | b :: bs => byteHex b ++ toHex bs

/-- Append the transport line terminator (each `output += line + '\r\n'`). -/
def lineCR (l : List Char) : List Char := l ++ "\r\n".data

/-- The preamble line: allocate a same-length remote byte buffer and a
running offset initialized to 0. -/
def preambleLine (n : Nat) : List Char :=
  "import gc; gc.collect(); b_ = bytearray(".data ++ natDec n ++ "); bi_ = 0".data

/-- The four lines emitted for one hex chunk: the chunk text literal,
the decode loop, the `_EMPTY_` sentinel, and the offset-advance /
progress / cleanup line. -/
def chunkGroup (chunk : List Char) : List Char :=
  lineCR ("c_ = b'".data ++ chunk ++ "'".data)
    ++ lineCR "for i in range(len(c_)//2): b_[bi_+i] = int(c_[2*i:2*i+2], 16).to_bytes(1, 'little')[0]".data
    ++ lineCR "_EMPTY_".data
    ++ lineCR "bi_ += len(c_)//2; print(\".\", end=\"\"); del c_; gc.collect()".data

/-- The chunk loop of `wrapCodeHex`: `count` iterations starting at
index `i`, chunk `i` being `hexStr.substring(i * 1024, (i + 1) * 1024)`. -/
def chunkLoop (hex : List Char) : Nat → Nat → List Char
  | _, 0 => []
  | i, count + 1 =>
    chunkGroup ((hex.drop (i * 1024)).take 1024) ++ chunkLoop hex (i + 1) count

/-- The trailing lines of `wrapCodeHex`: decode-and-execute when no
destination is given, otherwise open/write/close with `'ab'` when
`append` and `'wb'` otherwise. -/
def tailLines (saveTo : Option (List Char)) (append : Bool) : List Char :=
  match saveTo with
  | none =>
    lineCR "print(\" Running.\"); print(\"--------\"); b_ = b_.decode()".data
      ++ lineCR "exec(b_)".data
      ++ lineCR "del b_".data
  | some dest =>
    lineCR ("f_ = open('".data ++ dest ++ "', '".data
      ++ (if append then "ab".data else "wb".data) ++ "')".data)
      ++ lineCR "_ = f_.write(b_)".data
      ++ lineCR "f_.close();".data
      ++ lineCR "del f_; del b_; gc.collect(); print(\" Done.\")".data

/-- `wrapCodeHex(binCode, saveTo, append)`: hex-encode the payload, emit
the preamble, `Math.ceil(hexStr.length / 1024)` chunk groups, and the
tail (`this.chunkSize` is the instance default 1024). -/
def wrapCodeHex (bytes : List Nat) (saveTo : Option (List Char))
    (append : Bool) : List Char :=
  let hex := toHex bytes
  lineCR (preambleLine bytes.length)
    ++ chunkLoop hex 0 ((hex.length + 1023) / 1024)
    ++ tailLines saveTo append

/-- Spec-shaped chunking: split a char list into consecutive pieces of
at most 1024 characters. -/
def chunksOf1024 : List Char → List (List Char)
  | [] => []
  | c :: rest => ((c :: rest).take 1024) :: chunksOf1024 (rest.drop 1023)
termination_by l => l.length
decreasing_by simp; omega

/-! ## File download: downloadCode (C7, C10)

`sendLine` calls of one `downloadCode` run, in order (index = argument
to `respond`): 0 the try-open probe, 1 the except line, 2 the empty
line whose result is `checkResult`, 3 the read-into-variable command,
4 the marker-printing command whose result is `result`.  The JS code
dereferences `checkResult` and `result` without a null guard; a `null`
there raises a `TypeError`, modelled as `DlErr.typeErr`. -/

/-- Failure modes of `downloadCode`. -/
inductive DlErr
  | unresponsive
  | typeErr
  | fileNotFound
  | transferIncomplete
deriving DecidableEq

/-- The existence-probe commands sent by `downloadCode` (the try/except
pair and the empty line that executes the block). -/
def probeSent (filename : List Char) : List (List Char) :=
  ["try: f = open('".data ++ filename ++ "', 'r'); f.close(); print(\"FILE_EXISTS\")".data,
   "except: print(\"FILE_NOT_FOUND\")".data,
   []]

/-- The read-into-variable command. -/
def readCmd (filename : List Char) : List Char :=
  "f = open('".data ++ filename ++ "', 'r'); content = f.read(); f.close()".data

/-- The marker-printing command. -/
def printCmd : List Char :=
  "print(\"===FILE_START===\", end=\"\"); print(content, end=\"\"); print(\"===FILE_END===\")".data

/-- All commands sent on the no-missing-file path. -/
def allSent (filename : List Char) : List (List Char) :=
  probeSent filename ++ [readCmd filename, printCmd]

/-- `downloadCode(filename)`: drain (`null` aborts as unresponsive),
probe for existence, read the file and extract the content between the
two markers, normalizing `\r\n` to `\n`.  Returns the outcome and the
transcript of sent commands. -/
def downloadCode (filename : List Char) (drain : Option (List Char))
    (respond : Nat → Option (List Char)) :
    Except DlErr (List Char) × List (List Char) :=
  match drain with
  | none => (Except.error DlErr.unresponsive, [])
  | some _ =>
    match respond 2 with
    | none => (Except.error DlErr.typeErr, probeSent filename)
    | some check =>
      if containsSubL check "FILE_NOT_FOUND".data then
        (Except.error DlErr.fileNotFound, probeSent filename)
      else
        match respond 4 with
        | none => (Except.error DlErr.typeErr, allSent filename)
        | some result =>
          match idxOfSubL "===FILE_START===".data result,
                idxOfSubL "===FILE_END===".data result with
          | some si, some ei =>
            (Except.ok (normalizeCRLF (substringJs result (si + 16) ei)),
             allSent filename)
          | _, _ => (Except.error DlErr.transferIncomplete, allSent filename)

/-! ## Spec-shaped statement forms used by the claims -/

/-- A line equals its own trim: no leading or trailing whitespace. -/
def isTrimmed (s : List Char) : Bool := decide (trimL s = s)

/-- C5 statement form: the behaviour of the Raw Executor's per-line loop
on a single-line payload, fully characterised.  With retry enabled and a
non-execute line: at most three sendLine attempts, the first attempt
whose response is non-null and Traceback-free is accepted and stops the
retries, and three failed attempts fail the call.  With retry disabled,
or on an execute-marker line: exactly one send that fails iff the
response is null. -/
def RetryLineSpec (line : List Char) (respond : Nat → Option (List Char))
    (k : Nat) : Prop :=
  (hasPrefixL (execActual line) "exec(".data = false →
    execLines true respond [line] k =
      (if goodResp (respond k) then (Except.ok (), [execActual line], k + 1)
       else if goodResp (respond (k + 1)) then
         (Except.ok (), [execActual line, execActual line], k + 2)
       else if goodResp (respond (k + 2)) then
         (Except.ok (), [execActual line, execActual line, execActual line], k + 3)
       else (Except.error ExecErr.retriesExhausted,
             [execActual line, execActual line, execActual line], k + 3))) ∧
  (execLines false respond [line] k =
    (if (respond k).isSome then (Except.ok (), [execActual line], k + 1)
     else (Except.error ExecErr.sendFailed, [execActual line], k + 1))) ∧
  (hasPrefixL (execActual line) "exec(".data = true →
    execLines true respond [line] k =
      (if (respond k).isSome then (Except.ok (), [execActual line], k + 1)
       else (Except.error ExecErr.sendFailed, [execActual line], k + 1)))

/-- C7 statement form: `downloadCode` with non-null probe and read
responses: a probe response carrying FILE_NOT_FOUND fails with the
file-not-found error; otherwise a missing start or end marker fails
with the transfer-incomplete error, and with both markers present the
call returns exactly the substring between the markers with `\r\n`
normalized to `\n`, having issued the probe, read and print commands. -/
def DownloadSpec (filename drain check res : List Char)
    (respond : Nat → Option (List Char)) : Prop :=
  (containsSubL check "FILE_NOT_FOUND".data = true →
    downloadCode filename (some drain) respond =
      (Except.error DlErr.fileNotFound, probeSent filename)) ∧
  (containsSubL check "FILE_NOT_FOUND".data = false →
    ((idxOfSubL "===FILE_START===".data res = none ∨
      idxOfSubL "===FILE_END===".data res = none) →
      downloadCode filename (some drain) respond =
        (Except.error DlErr.transferIncomplete, allSent filename)) ∧
    ((idxOfSubL "===FILE_START===".data res).isSome = true →
      (idxOfSubL "===FILE_END===".data res).isSome = true →
      downloadCode filename (some drain) respond =
        (Except.ok (normalizeCRLF (substringJs res
            ((idxOfSubL "===FILE_START===".data res).getD 0 + 16)
            ((idxOfSubL "===FILE_END===".data res).getD 0))),
         allSent filename)))

/-- C8 statement form: `wrapCodeHex` emits the preamble allocating a
byte buffer of exactly `bytes.length` bytes with offset 0, then one
four-line chunk group per piece of the `2·n`-character hex encoding
split into pieces of at most 1024 characters (so `⌈2n/1024⌉` groups,
whose pieces reassemble the full hex string), then the tail: write mode
`'wb'` when `append` is false, `'ab'` when true, or the
decode-and-execute lines when no destination is given. -/
def WrapCodeHexSpec (bytes : List Nat) (saveTo : Option (List Char))
    (append : Bool) (fname : List Char) : Prop :=
  (toHex bytes).length = 2 * bytes.length ∧
  (chunksOf1024 (toHex bytes)).length = (2 * bytes.length + 1023) / 1024 ∧
  ((chunksOf1024 (toHex bytes)).all fun c => c.length ≤ 1024) = true ∧
  (chunksOf1024 (toHex bytes)).flatten = toHex bytes ∧
  wrapCodeHex bytes saveTo append =
    lineCR (preambleLine bytes.length)
      ++ ((chunksOf1024 (toHex bytes)).map chunkGroup).flatten
      ++ tailLines saveTo append ∧
  tailLines (some fname) false =
    lineCR ("f_ = open('".data ++ fname ++ "', 'wb')".data)
      ++ lineCR "_ = f_.write(b_)".data
      ++ lineCR "f_.close();".data
      ++ lineCR "del f_; del b_; gc.collect(); print(\" Done.\")".data ∧
  tailLines (some fname) true =
    lineCR ("f_ = open('".data ++ fname ++ "', 'ab')".data)
      ++ lineCR "_ = f_.write(b_)".data
      ++ lineCR "f_.close();".data
      ++ lineCR "del f_; del b_; gc.collect(); print(\" Done.\")".data ∧
  tailLines none append =
    lineCR "print(\" Running.\"); print(\"--------\"); b_ = b_.decode()".data
      ++ lineCR "exec(b_)".data
      ++ lineCR "del b_".data

/-! ## Claim C1: uploadCode chunk splitting (code bug) -/

set_option maxRecDepth 8192 in
/-- C1: the claim (and the code's own comment) require `uploadCode` to
split the payload into `⌈n / 512⌉` chunks of at most 512 characters, but
`const chunkSize = this.chunkSize // 2;` parses `// 2` as a JS comment,
so a 600-character payload is sent as one single 600-character chunk
(with append = false), while `⌈600 / 512⌉ = 2`. -/
theorem uploadChunks_ignores_half_division :
    uploadChunks (List.replicate 600 'a') = [(List.replicate 600 'a', false)] ∧
    (600 + 511) / 512 = 2 ∧
    ((uploadChunks (List.replicate 600 'a')).all fun p => p.1.length ≤ 512) = false := by
  refine ⟨?_, by norm_num, ?_⟩ <;> decide

/-! ## Claim C2: buffer truncation and consumer cursors -/

/-- C2 counterexample: starting from a 10000-entry buffer and a consumer
cursor at 10000, appending one chunk triggers the truncation; 5001
entries are removed (10001 down to 5000) but the cursor is decremented
by only 5000, not by the removed count (which would give 4999). -/
theorem appendChunk_counterexample :
    ((appendChunk ⟨['y'], 1⟩ (List.replicate 10000 ⟨[], 0⟩) [⟨['c'], 10000⟩]).1.length
       = 5000) ∧
    ((appendChunk ⟨['y'], 1⟩ (List.replicate 10000 ⟨[], 0⟩) [⟨['c'], 10000⟩]).2
       = [⟨['c'], 5000⟩]) ∧
    ((List.replicate 10000 (⟨[], 0⟩ : BufferEntry)).length + 1) - 5000 = 5001 ∧
    10000 - 5001 ≠ 5000 := by
  have happ : ((List.replicate 10000 (⟨[], 0⟩ : BufferEntry))
      ++ [(⟨['y'], 1⟩ : BufferEntry)]).length = 10001 := by
    rw [List.length_append, List.length_replicate, List.length_cons, List.length_nil]
  have htr : appendChunk ⟨['y'], 1⟩ (List.replicate 10000 ⟨[], 0⟩) [⟨['c'], 10000⟩] =
      ((List.replicate 10000 (⟨[], 0⟩ : BufferEntry)
          ++ [(⟨['y'], 1⟩ : BufferEntry)]).drop 5001,
       ([⟨['c'], 5000⟩] : List Consumer)) := by
    unfold appendChunk truncateStep
    rw [happ]
    norm_num [List.map_cons]
  rw [htr]
  refine ⟨?_, rfl, ?_, by decide⟩
  · rw [List.length_drop, happ]
  · rw [List.length_replicate]

/-- C2 (amended): when an append makes the buffer exceed 10000 entries it
is truncated to its most recent 5000, and every cursor above 5000 is
decremented by exactly 5000 (one less than the 5001 removed entries),
every other cursor set to 0; provided every cursor was within the buffer
before the append, `0 ≤ cursor ≤ buffer length` still holds afterwards,
and the buffer never exceeds 10000 entries. -/
theorem appendChunk_invariant (buf : List BufferEntry) (cs : List Consumer)
    (e : BufferEntry) (hlen : buf.length ≤ 10000)
    (hcs : (cs.all fun c => c.position ≤ buf.length) = true) :
    ((appendChunk e buf cs).1.length ≤ 10000) ∧
    (((appendChunk e buf cs).2.all
        fun c => c.position ≤ (appendChunk e buf cs).1.length) = true) ∧
    (buf.length = 10000 →
      (appendChunk e buf cs).1.length = 5000 ∧
      (appendChunk e buf cs).2 = cs.map fun c =>
        { c with position := if c.position > 5000 then c.position - 5000 else 0 }) := by
  simp only [List.all_eq_true, decide_eq_true_eq] at hcs
  have happ : (buf ++ [e]).length = buf.length + 1 := by
    rw [List.length_append, List.length_cons, List.length_nil]
  by_cases h : (buf ++ [e]).length > 10000
  · have hb : buf.length = 10000 := by rw [happ] at h; omega
    have htr : appendChunk e buf cs =
        ((buf ++ [e]).drop ((buf ++ [e]).length - 5000),
         cs.map fun c =>
           { c with position := if c.position > 5000 then c.position - 5000 else 0 }) := by
      unfold appendChunk truncateStep
      rw [if_pos h]
    rw [htr]
    dsimp only
    have hlen1 : ((buf ++ [e]).drop ((buf ++ [e]).length - 5000)).length = 5000 := by
      rw [List.length_drop, happ, hb]
    refine ⟨by rw [hlen1]; omega, ?_, fun _ => ⟨hlen1, rfl⟩⟩
    simp only [List.all_map, List.all_eq_true, decide_eq_true_eq, Function.comp_apply]
    intro c hc
    have := hcs c hc
    rw [hlen1]
    split <;> omega
  · have htr : appendChunk e buf cs = (buf ++ [e], cs) := by
      unfold appendChunk truncateStep
      rw [if_neg h]
    rw [htr]
    dsimp only
    rw [happ] at h
    refine ⟨?_, ?_, fun hb => by omega⟩
    · rw [happ]; omega
    · simp only [List.all_eq_true, decide_eq_true_eq]
      intro c hc
      have := hcs c hc
      rw [happ]
      omega

/-- C2 witness: the amended invariant theorem applied to a concrete
small state. -/
theorem appendChunk_invariant_witness :
    (([] : List BufferEntry).length ≤ 10000) ∧
    (([⟨['c'], 0⟩] : List Consumer).all
       (fun c => c.position ≤ ([] : List BufferEntry).length)) = true ∧
    ((appendChunk ⟨['y'], 1⟩ [] ([⟨['c'], 0⟩] : List Consumer)).1.length ≤ 10000) ∧
    (((appendChunk ⟨['y'], 1⟩ [] ([⟨['c'], 0⟩] : List Consumer)).2.all
        fun c => c.position ≤
          (appendChunk ⟨['y'], 1⟩ [] ([⟨['c'], 0⟩] : List Consumer)).1.length) = true) ∧
    (([] : List BufferEntry).length = 10000 →
      (appendChunk ⟨['y'], 1⟩ [] ([⟨['c'], 0⟩] : List Consumer)).1.length = 5000 ∧
      (appendChunk ⟨['y'], 1⟩ [] ([⟨['c'], 0⟩] : List Consumer)).2 =
        ([⟨['c'], 0⟩] : List Consumer).map fun c =>
          { c with position := if c.position > 5000 then c.position - 5000 else 0 }) := by
  have h := appendChunk_invariant [] ([⟨['c'], 0⟩] : List Consumer) ⟨['y'], 1⟩
    (by decide) (by decide)
  exact ⟨by decide, by decide, h.1, h.2.1, h.2.2⟩

/-! ## Claim C4: disconnect() cleanup ordering -/

/-- C4 counterexample: `disconnect()` cancels the reader and releases
read access before closing the writer, so the trace differs from the
claimed stop / release-write / release-read / close / clear order, and
the read release strictly precedes the write release. -/
theorem disconnectTrace_counterexample :
    disconnectTrace ⟨true, true, true⟩ =
      [DAction.stopBackgroundReading, DAction.readerCancel, DAction.readerReleaseLock,
       DAction.writerClose, DAction.portClose, DAction.clearBuffer] ∧
    disconnectTrace ⟨true, true, true⟩ ≠
      [DAction.stopBackgroundReading, DAction.writerClose, DAction.readerCancel,
       DAction.readerReleaseLock, DAction.portClose, DAction.clearBuffer] ∧
    (disconnectTrace ⟨true, true, true⟩).indexOf DAction.readerReleaseLock <
      (disconnectTrace ⟨true, true, true⟩).indexOf DAction.writerClose := by
  decide

/-- C4 (amended): `disconnect()` stops the Background Reader first, then
cancels the reader and releases read access, then closes the writer
(releasing write access), then closes the transport, and finally clears
the buffer; for every connection state the trace starts with the stop
and ends with the clear. -/
theorem disconnectTrace_order :
    disconnectTrace ⟨true, true, true⟩ =
      [DAction.stopBackgroundReading, DAction.readerCancel, DAction.readerReleaseLock,
       DAction.writerClose, DAction.portClose, DAction.clearBuffer] ∧
    ∀ s : ConnState,
      (disconnectTrace s).head? = some DAction.stopBackgroundReading ∧
      (disconnectTrace s).getLast? = some DAction.clearBuffer := by
  refine ⟨by decide, ?_⟩
  rintro ⟨r, w, p⟩
  cases r <;> cases w <;> cases p <;> exact ⟨by decide, by decide⟩

/-! ## Claim C3: readUntilPrompt retry accounting -/

/-- C3 counterexample: the poll stream empty / data / empty / prompt has
no two consecutive empty polls, yet `readUntilPrompt` returns the null
failure; with the first empty poll removed the very same data polls
succeed, so the two non-consecutive empty polls did accumulate. -/
theorem readUntilPrompt_counterexample :
    readUntilPrompt [[], "ab\r\n".data, [], "cd>>> ".data] = none ∧
    readUntilPrompt ["ab\r\n".data, [], "cd>>> ".data] = some "cd".data := by
  decide

/-- Helper: `rupPhase2` either continues with the retry counter untouched
or exits the loop; it never changes the counter. -/
theorem stepRetry_rupPhase2 (st : RUPState) (pd : List Char) :
    stepRetry (rupPhase2 st pd) = some st.retry ∨
    stepRetry (rupPhase2 st pd) = none := by
  simp only [rupPhase2]
  split
  · right; rfl
  · split
    · left; rfl
    · left; rfl

/-- C3 (amended): `readUntilPrompt` fails with the null result exactly
upon consuming its second empty poll overall: an empty poll seen with
the counter at 1 returns null, an empty poll at counter 0 just
increments the counter, and a data poll never resets the counter
(so empty polls separated by data still accumulate), as the concrete
non-consecutive run shows. -/
theorem readUntilPrompt_empty_poll_accounting (st : RUPState) (d : List Char)
    (hd : d ≠ []) :
    (st.retry = 1 → rupStep st [] = StepRes.done none) ∧
    (st.retry = 0 → rupStep st [] = StepRes.cont { st with retry := st.retry + 1 }) ∧
    (stepRetry (rupStep st d) = some st.retry ∨ stepRetry (rupStep st d) = none) ∧
    readUntilPrompt [[], "ab\r\n".data, []] = none := by
  refine ⟨fun h => by simp [rupStep, h], fun h => by simp [rupStep, h], ?_, by decide⟩
  simp only [rupStep, if_neg hd]
  repeat' split
  all_goals
    first
      | exact stepRetry_rupPhase2 _ _
      | (left; rfl)

/-- C3 witness: the amended accounting theorem applied at a concrete
state and data poll. -/
theorem readUntilPrompt_empty_poll_accounting_witness :
    ("x".data ≠ ([] : List Char)) ∧
    ((RUPState.mk 1 [] 1 []).retry = 1 →
       rupStep (RUPState.mk 1 [] 1 []) [] = StepRes.done none) ∧
    ((RUPState.mk 1 [] 1 []).retry = 0 →
       rupStep (RUPState.mk 1 [] 1 []) [] =
         StepRes.cont (RUPState.mk 1 [] ((RUPState.mk 1 [] 1 []).retry + 1) [])) ∧
    (stepRetry (rupStep (RUPState.mk 1 [] 1 []) "x".data) =
       some (RUPState.mk 1 [] 1 []).retry ∨
     stepRetry (rupStep (RUPState.mk 1 [] 1 []) "x".data) = none) ∧
    readUntilPrompt [[], "ab\r\n".data, []] = none := by
  have h := readUntilPrompt_empty_poll_accounting (RUPState.mk 1 [] 1 [])
    "x".data (by decide)
  exact ⟨by decide, h.1, h.2.1, h.2.2.1, h.2.2.2⟩

/-! ## Helper lemmas: trimming -/

/-- The head of a list that is unchanged by `dropWhile` fails `p`. -/
theorem head_false_of_dropWhile_self (p : Char → Bool) (m : List Char)
    (hm : m.dropWhile p = m) : ∀ a t, m = a :: t → p a = false := by
  intro a t h
  subst h
  rw [List.dropWhile_cons] at hm
  by_cases hpa : p a
  · rw [if_pos hpa] at hm
    have hle := (List.dropWhile_suffix (l := t) p).length_le
    rw [hm, List.length_cons] at hle
    omega
  · simpa using hpa

/-- Right-trimming preserves the absence of leading matches. -/
theorem dropWhile_rdropWhile (p : Char → Bool) (m : List Char)
    (hm : m.dropWhile p = m) :
    (m.rdropWhile p).dropWhile p = m.rdropWhile p := by
  obtain ⟨s, hs⟩ := List.rdropWhile_prefix p m
  cases hr : m.rdropWhile p with
  | nil => rfl
  | cons b t =>
    rw [hr] at hs
    have hb : p b = false := by
      apply head_false_of_dropWhile_self p m hm b (t ++ s)
      rw [← hs]
      simp
    rw [List.dropWhile_cons, hb]
    simp

/-- JS `trim` is idempotent. -/
theorem trimL_trimL (l : List Char) : trimL (trimL l) = trimL l := by
  have he : ∀ m : List Char,
      trimL m = (m.dropWhile isSpaceChar).rdropWhile isSpaceChar := fun _ => rfl
  rw [he (trimL l), he l,
    dropWhile_rdropWhile isSpaceChar _ (List.dropWhile_idempotent _ _)]
  exact List.rdropWhile_idempotent _ _

/-- Every line actually transmitted by the Raw Executor is trimmed. -/
theorem isTrimmed_execActual (line : List Char) :
    isTrimmed (execActual line) = true := by
  rw [execActual]
  split
  · decide
  · simp [isTrimmed, trimL_trimL]

/-- A replicated list is all-`f` when its element is. -/
theorem all_replicate_of_pos {α : Type} (n : Nat) (a : α) (f : α → Bool)
    (hf : f a = true) : ((List.replicate n a).all f) = true := by
  induction n with
  | zero => rfl
  | succ n ih => simp [List.replicate_succ, hf, ih]

/-! ## Helper lemmas: the Raw Executor -/

/-- The retry loop with its three attempts unrolled. -/
theorem tryAttempts_three (respond : Nat → Option (List Char)) (k : Nat) :
    tryAttempts respond k 3 =
      (if goodResp (respond k) then (true, 1)
       else if goodResp (respond (k + 1)) then (true, 2)
       else if goodResp (respond (k + 2)) then (true, 3)
       else (false, 3)) := by
  by_cases g0 : goodResp (respond k) <;>
    by_cases g1 : goodResp (respond (k + 1)) <;>
      by_cases g2 : goodResp (respond (k + 2)) <;>
        simp [tryAttempts, g0, g1, g2]

/-- Whatever the oracle answers, every line in the transcript of
`execLines` is trimmed (or empty). -/
theorem execLines_sent_trimmed (retry : Bool) (respond : Nat → Option (List Char)) :
    ∀ (lines : List (List Char)) (k : Nat),
      ((execLines retry respond lines k).2.1.all isTrimmed) = true := by
  intro lines
  induction lines with
  | nil => intro k; simp [execLines]
  | cons line rest ih =>
    intro k
    simp only [execLines]
    split
    · exact ih k
    · split
      · cases h : respond k with
        | none => simp [isTrimmed_execActual]
        | some s => simp [isTrimmed_execActual, ih]
      · split
        · simp [List.all_append, isTrimmed_execActual, ih,
            all_replicate_of_pos _ _ _ (isTrimmed_execActual line)]
        · simp [all_replicate_of_pos _ _ _ (isTrimmed_execActual line)]

/-- When every response is accepted, `execLines` succeeds and its
transcript is exactly `sentSpec` of the lines, one send per line. -/
theorem execLines_all_good (respond : Nat → Option (List Char))
    (hg : ∀ n, goodResp (respond n) = true) (retry : Bool) :
    ∀ (lines : List (List Char)) (k : Nat),
      execLines retry respond lines k =
        (Except.ok (), sentSpec lines, k + (sentSpec lines).length) := by
  intro lines
  induction lines with
  | nil => intro k; simp [execLines, sentSpec]
  | cons line rest ih =>
    intro k
    have hk := hg k
    by_cases ht : trimL line = []
    · rw [execLines, if_pos ht, ih k]
      simp [sentSpec, List.filterMap_cons, ht]
    · have hsent : sentSpec (line :: rest) = execActual line :: sentSpec rest := by
        simp [sentSpec, List.filterMap_cons, ht]
      have harith : (k + 1) + (sentSpec rest).length =
          k + (sentSpec rest).length.succ := by omega
      rw [execLines, if_neg ht]
      dsimp only
      by_cases hb : (!retry || hasPrefixL (execActual line) "exec(".data) = true
      · rw [if_pos hb]
        cases h : respond k with
        | none => rw [h] at hk; simp [goodResp] at hk
        | some s =>
          rw [ih (k + 1), hsent]
          simp only [List.length_cons, Nat.succ_eq_add_one]
          rw [show (k + 1) + (sentSpec rest).length =
            k + ((sentSpec rest).length + 1) from by omega]
      · rw [if_neg hb]
        have htry : tryAttempts respond k 3 = (true, 1) := by
          rw [tryAttempts_three, if_pos hk]
        rw [htry]
        dsimp only
        rw [if_pos rfl, ih (k + 1), hsent]
        simp only [List.replicate, List.singleton_append, List.length_cons,
          Nat.succ_eq_add_one]
        rw [show (k + 1) + (sentSpec rest).length =
          k + ((sentSpec rest).length + 1) from by omega]

/-- Counting the empty transmitted lines: one per sentinel line. -/
theorem sentSpec_count_nil (lines : List (List Char)) :
    (sentSpec lines).count ([] : List Char) =
      (lines.filter fun l => trimL l = "_EMPTY_".data).length := by
  induction lines with
  | nil => rfl
  | cons l rest ih =>
    rw [List.filter_cons]
    by_cases h : trimL l = []
    · have hstep : sentSpec (l :: rest) = sentSpec rest := by
        simp [sentSpec, List.filterMap_cons, h]
      have hne : ¬ (trimL l = "_EMPTY_".data) := by rw [h]; decide
      rw [hstep]
      rw [if_neg (by simpa using hne)]
      exact ih
    · have hstep : sentSpec (l :: rest) = execActual l :: sentSpec rest := by
        simp [sentSpec, List.filterMap_cons, h]
      rw [hstep]
      by_cases h2 : trimL l = "_EMPTY_".data
      · have hact : execActual l = [] := by simp [execActual, h2]
        rw [hact]
        simp [List.count_cons, h2, ih]
      · have hact : execActual l ≠ [] := by simp [execActual, h2, h]
        simp [List.count_cons, hact, h2, ih]

/-- Unfolding of `executeCodeRaw` after a successful drain. -/
theorem executeCodeRaw_some (drain code : List Char) (retry : Bool)
    (respond : Nat → Option (List Char)) :
    executeCodeRaw (some drain) code retry respond =
      ((execLines retry respond (splitOnChar '\n' (normalizeCR code)) 0).1,
       (execLines retry respond (splitOnChar '\n' (normalizeCR code)) 0).2.1) := rfl

/-! ## Claim C5: the Raw Executor's per-line retry policy -/

/-- C5: for a non-blank line, `executeCodeRaw`'s per-line loop satisfies
the full retry characterisation `RetryLineSpec`: with retry enabled and
a non-execute line, at most 3 attempts, acceptance at the first
non-null Traceback-free response with no further attempt, failure after
3 bad attempts; with retry disabled or an execute-marker line, exactly
one send, failing iff that response is null. -/
theorem executeCodeRaw_retry_policy (line : List Char)
    (respond : Nat → Option (List Char)) (k : Nat) (ht : trimL line ≠ []) :
    RetryLineSpec line respond k := by
  unfold RetryLineSpec
  refine ⟨?_, ?_, ?_⟩
  · intro hpre
    by_cases g0 : goodResp (respond k) <;>
      by_cases g1 : goodResp (respond (k + 1)) <;>
        by_cases g2 : goodResp (respond (k + 2)) <;>
          simp [execLines, ht, hpre, tryAttempts_three, g0, g1, g2,
            List.replicate]
  · cases h : respond k <;> simp [execLines, ht, h]
  · intro hpre
    cases h : respond k <;> simp [execLines, ht, hpre, h]

/-- C5 witness: the characterisation applied to a concrete line, oracle
and send counter. -/
theorem executeCodeRaw_retry_policy_witness :
    (trimL "foo()".data ≠ []) ∧
    RetryLineSpec "foo()".data (fun _ => some []) 0 :=
  ⟨by decide, executeCodeRaw_retry_policy "foo()".data (fun _ => some []) 0 (by decide)⟩

/-! ## Claim C6: normalization, blank-line skipping and the sentinel -/

/-- C6: with every response accepted, `executeCodeRaw` normalizes line
terminators (`\r` to `\n`), splits on `\n`, and transmits exactly the
non-blank lines in order — each trimmed, except that a line trimming to
the sentinel `_EMPTY_` is transmitted as an intentionally empty line
rather than skipped (`sentSpec`). -/
theorem executeCodeRaw_skips_blanks_maps_sentinel (code drain r : List Char)
    (retry : Bool) (hr : containsSubL r "Traceback".data = false) :
    executeCodeRaw (some drain) code retry (fun _ => some r) =
      (Except.ok (), sentSpec (splitOnChar '\n' (normalizeCR code))) := by
  have hg : ∀ n, goodResp ((fun _ : Nat => some r) n) = true := fun n => by
    simp [goodResp, hr]
  rw [executeCodeRaw_some, execLines_all_good (fun _ => some r) hg]

/-- C6 witness: a payload with a `\r` terminator, a blank line and a
sentinel line, sent against an always-accepting oracle. -/
theorem executeCodeRaw_skips_blanks_maps_sentinel_witness :
    containsSubL "ok".data "Traceback".data = false ∧
    executeCodeRaw (some []) "x\r\n\n_EMPTY_\ny".data true (fun _ => some "ok".data) =
      (Except.ok (), sentSpec (splitOnChar '\n' (normalizeCR "x\r\n\n_EMPTY_\ny".data))) :=
  ⟨by decide,
   executeCodeRaw_skips_blanks_maps_sentinel "x\r\n\n_EMPTY_\ny".data [] "ok".data
     true (by decide)⟩

/-! ## Claim C9: every transmitted line is trimmed -/

/-- C9: whatever the oracle answers, every line `executeCodeRaw`
transmits is its own trim — indentation never reaches the device — and
(against an accepting oracle) the number of empty transmitted lines is
exactly the number of payload lines that trim to the sentinel, so only
the sentinel yields an empty sent line. -/
theorem executeCodeRaw_transmits_trimmed (code drain r : List Char)
    (retry : Bool) (respond : Nat → Option (List Char))
    (hr : containsSubL r "Traceback".data = false) :
    (((executeCodeRaw (some drain) code retry respond).2.all isTrimmed) = true) ∧
    ((executeCodeRaw (some drain) code retry (fun _ => some r)).2.count [] =
      ((splitOnChar '\n' (normalizeCR code)).filter
        fun l => trimL l = "_EMPTY_".data).length) := by
  have hg : ∀ n, goodResp ((fun _ : Nat => some r) n) = true := fun n => by
    simp [goodResp, hr]
  constructor
  · rw [executeCodeRaw_some]
    exact execLines_sent_trimmed retry respond _ 0
  · rw [executeCodeRaw_some, execLines_all_good (fun _ => some r) hg]
    exact sentSpec_count_nil _

/-- C9 witness: an indented payload with a sentinel line. -/
theorem executeCodeRaw_transmits_trimmed_witness :
    containsSubL "ok".data "Traceback".data = false ∧
    ((((executeCodeRaw (some []) "  a = 1\n_EMPTY_\n  b".data true
        (fun _ => none)).2.all isTrimmed) = true) ∧
     ((executeCodeRaw (some []) "  a = 1\n_EMPTY_\n  b".data true
        (fun _ => some "ok".data)).2.count [] =
       ((splitOnChar '\n' (normalizeCR "  a = 1\n_EMPTY_\n  b".data)).filter
         fun l => trimL l = "_EMPTY_".data).length)) :=
  ⟨by decide,
   executeCodeRaw_transmits_trimmed "  a = 1\n_EMPTY_\n  b".data [] "ok".data
     true (fun _ => none) (by decide)⟩

/-! ## Helper lemmas: the Transfer Encoder -/

/-- Hex encoding doubles the length (every byte gives two digits). -/
theorem toHex_length (bytes : List Nat) :
    (toHex bytes).length = 2 * bytes.length := by
  induction bytes with
  | nil => rfl
  | cons b bs ih =>
    simp only [toHex, byteHex, List.length_append, List.length_cons, ih]
    simp only [List.length_cons, List.length_nil]
    omega

/-- The spec-shaped chunking produces `⌈len/1024⌉` pieces. -/
theorem chunksOf1024_length (l : List Char) :
    (chunksOf1024 l).length = (l.length + 1023) / 1024 := by
  cases hl : l with
  | nil => simp [chunksOf1024]
  | cons c rest =>
    have ih := chunksOf1024_length (rest.drop 1023)
    simp only [chunksOf1024, List.length_cons, List.length_drop] at ih ⊢
    omega
termination_by l.length
decreasing_by simp [hl]; omega

/-- The spec-shaped chunking reassembles the original list. -/
theorem chunksOf1024_flatten (l : List Char) :
    (chunksOf1024 l).flatten = l := by
  cases hl : l with
  | nil => simp [chunksOf1024]
  | cons c rest =>
    have ih := chunksOf1024_flatten (rest.drop 1023)
    simp only [chunksOf1024, List.flatten_cons, ih]
    rw [show (1024 : Nat) = 1023 + 1 from rfl, List.take_succ_cons]
    simp [List.take_append_drop]
termination_by l.length
decreasing_by simp [hl]; omega

/-- Every piece of the spec-shaped chunking holds at most 1024 chars. -/
theorem chunksOf1024_le (l : List Char) :
    ((chunksOf1024 l).all fun c => c.length ≤ 1024) = true := by
  cases hl : l with
  | nil => simp [chunksOf1024]
  | cons c rest =>
    have ih := chunksOf1024_le (rest.drop 1023)
    simp only [chunksOf1024, List.all_cons, ih, Bool.and_true]
    simp [List.length_take]
termination_by l.length
decreasing_by simp [hl]; omega

/-- The source's indexed chunk loop computes the chunk groups of the
spec-shaped chunking of the remaining hex text. -/
theorem chunkLoop_eq (hex : List Char) :
    ∀ (k i : Nat), k = ((hex.drop (i * 1024)).length + 1023) / 1024 →
      chunkLoop hex i k =
        ((chunksOf1024 (hex.drop (i * 1024))).map chunkGroup).flatten := by
  intro k
  induction k with
  | zero =>
    intro i hk
    have hlen : (hex.drop (i * 1024)).length = 0 := by omega
    have hnil : hex.drop (i * 1024) = [] := List.length_eq_zero.mp hlen
    rw [hnil]
    simp [chunkLoop, chunksOf1024]
  | succ k ih =>
    intro i hk
    have hlen : 0 < (hex.drop (i * 1024)).length := by omega
    obtain ⟨c, rest, hcr⟩ : ∃ c rest, hex.drop (i * 1024) = c :: rest := by
      cases h : hex.drop (i * 1024) with
      | nil => rw [h] at hlen; simp at hlen
      | cons c rest => exact ⟨c, rest, rfl⟩
    have hdd : hex.drop ((i + 1) * 1024) = rest.drop 1023 := by
      rw [show (i + 1) * 1024 = i * 1024 + 1024 from by ring, ← List.drop_drop, hcr]
      rw [show (1024 : Nat) = 1023 + 1 from rfl, List.drop_succ_cons]
    have hk' : k = ((hex.drop ((i + 1) * 1024)).length + 1023) / 1024 := by
      rw [hdd, List.length_drop]
      rw [hcr, List.length_cons] at hk
      omega
    have hrec := ih (i + 1) hk'
    rw [hdd] at hrec
    simp only [chunkLoop, hrec, hcr, chunksOf1024, List.map_cons, List.flatten_cons]

/-! ## Claim C8: the structure of wrapCodeHex -/

/-- C8: `wrapCodeHex` emits the preamble allocating `bytes.length`
remote bytes and a zero offset, exactly `⌈2n/1024⌉` four-line chunk
groups — one per at-most-1024-character piece of the `2n`-character hex
encoding, the pieces reassembling the whole hex text — and then either
the open-with-`'wb'`-or-`'ab'`/write/close tail or the
decode-and-execute tail. -/
theorem wrapCodeHex_structure (bytes : List Nat) (saveTo : Option (List Char))
    (append : Bool) (fname : List Char)
    (_hb : (bytes.all fun b => b < 256) = true) :
    WrapCodeHexSpec bytes saveTo append fname := by
  unfold WrapCodeHexSpec
  have hhex := toHex_length bytes
  refine ⟨hhex, ?_, chunksOf1024_le _, chunksOf1024_flatten _, ?_, ?_, ?_, ?_⟩
  · rw [chunksOf1024_length, hhex]
  · have hloop := chunkLoop_eq (toHex bytes)
      (((toHex bytes).length + 1023) / 1024) 0 (by simp)
    rw [List.drop_zero] at hloop
    unfold wrapCodeHex
    dsimp only
    rw [hloop]
  · simp only [tailLines]
    rw [if_neg (show ¬((false : Bool) = true) from by decide)]
    simp only [lineCR, List.append_assoc]
    rw [show ∀ rest : List Char,
      "', '".data ++ ("wb".data ++ ("')".data ++ ("\r\n".data ++ rest))) =
        "', 'wb')".data ++ ("\r\n".data ++ rest) from fun _ => rfl]
  · simp only [tailLines]
    simp only [if_true]
    simp only [lineCR, List.append_assoc]
    rw [show ∀ rest : List Char,
      "', '".data ++ ("ab".data ++ ("')".data ++ ("\r\n".data ++ rest))) =
        "', 'ab')".data ++ ("\r\n".data ++ rest) from fun _ => rfl]
  · rfl

/-- C8 witness: the structure theorem applied to the two-byte payload
`"hi"` saved to a file without append. -/
theorem wrapCodeHex_structure_witness :
    (([104, 105] : List Nat).all (fun b => b < 256) = true) ∧
    WrapCodeHexSpec [104, 105] (some "f.py".data) false "f.py".data :=
  ⟨by decide,
   wrapCodeHex_structure [104, 105] (some "f.py".data) false "f.py".data (by decide)⟩

/-! ## Claim C7: downloadCode probe, markers and extraction -/

/-- C7: with a non-null probe response and a non-null read response,
`downloadCode` fails with the file-not-found error when the probe
reports FILE_NOT_FOUND; otherwise it has issued the read-into-variable
and marker-printing commands, fails with the transfer-incomplete error
when either marker is missing, and otherwise returns exactly the
substring between the markers with `\r\n` normalized to `\n`. -/
theorem downloadCode_probe_and_markers (filename drain check res : List Char)
    (respond : Nat → Option (List Char))
    (hc2 : respond 2 = some check) (hc4 : respond 4 = some res) :
    DownloadSpec filename drain check res respond := by
  unfold DownloadSpec
  refine ⟨?_, ?_⟩
  · intro hfnf
    simp only [downloadCode, hc2]
    rw [if_pos hfnf]
  · intro hfnf
    refine ⟨?_, ?_⟩
    · intro hmiss
      simp only [downloadCode, hc2, hc4]
      rw [if_neg (by simp [hfnf])]
      rcases hm1 : idxOfSubL "===FILE_START===".data res with _ | si
      · simp only [hm1]
      · rcases hm2 : idxOfSubL "===FILE_END===".data res with _ | ei
        · simp only [hm1, hm2]
        · rcases hmiss with hm | hm
          · rw [hm1] at hm; exact absurd hm (by simp)
          · rw [hm2] at hm; exact absurd hm (by simp)
    · intro hs he
      obtain ⟨si, hsi⟩ := Option.isSome_iff_exists.mp hs
      obtain ⟨ei, hei⟩ := Option.isSome_iff_exists.mp he
      simp only [downloadCode, hc2, hc4]
      rw [if_neg (by simp [hfnf])]
      simp only [hsi, hei, Option.getD_some]

/-- C7 witness: a present file whose content `"hi\r\nworld"` is wrapped
by the two markers, downloaded against a concrete oracle. -/
theorem downloadCode_probe_and_markers_witness :
    ((fun n => if n = 2 then some "FILE_EXISTS".data
        else if n = 4 then some "===FILE_START===hi\r\nworld===FILE_END===".data
        else some ([] : List Char)) 2 = some "FILE_EXISTS".data) ∧
    ((fun n => if n = 2 then some "FILE_EXISTS".data
        else if n = 4 then some "===FILE_START===hi\r\nworld===FILE_END===".data
        else some ([] : List Char)) 4 =
      some "===FILE_START===hi\r\nworld===FILE_END===".data) ∧
    DownloadSpec "f.py".data [] "FILE_EXISTS".data
      "===FILE_START===hi\r\nworld===FILE_END===".data
      (fun n => if n = 2 then some "FILE_EXISTS".data
        else if n = 4 then some "===FILE_START===hi\r\nworld===FILE_END===".data
        else some ([] : List Char)) :=
  ⟨rfl, rfl,
   downloadCode_probe_and_markers "f.py".data [] "FILE_EXISTS".data
     "===FILE_START===hi\r\nworld===FILE_END===".data _ rfl rfl⟩

/-! ## Claim C10: the unguarded null probe response -/

/-- C10: when the Prompt Scanner returns the null failure for the
probe's empty-line command (as it does when every poll is empty —
`readUntilPrompt [] = none`), `downloadCode` dereferences that null in
the FILE_NOT_FOUND membership test: the call fails with a type error,
an outcome distinct from both the file-not-found and the
device-unresponsive errors. -/
theorem downloadCode_null_probe_unguarded (filename drain : List Char)
    (respond : Nat → Option (List Char)) (h2 : respond 2 = none) :
    downloadCode filename (some drain) respond =
      (Except.error DlErr.typeErr, probeSent filename) ∧
    DlErr.typeErr ≠ DlErr.fileNotFound ∧
    DlErr.typeErr ≠ DlErr.unresponsive ∧
    readUntilPrompt [] = none := by
  refine ⟨?_, by decide, by decide, rfl⟩
  simp only [downloadCode, h2]

/-- C10 witness: the all-null oracle. -/
theorem downloadCode_null_probe_unguarded_witness :
    ((fun _ : Nat => (none : Option (List Char))) 2 = none) ∧
    (downloadCode "main.py".data (some []) (fun _ => none) =
      (Except.error DlErr.typeErr, probeSent "main.py".data) ∧
     DlErr.typeErr ≠ DlErr.fileNotFound ∧
     DlErr.typeErr ≠ DlErr.unresponsive ∧
     readUntilPrompt [] = none) :=
  ⟨rfl, downloadCode_null_probe_unguarded "main.py".data [] (fun _ => none) rfl⟩

end MiniBot
